import Mathlib

/-!
Verification of the order-book reconstruction core of the ccxtr repository.

The definitions below are a shallow embedding of `src/util/mod.rs`,
`src/util/collections.rs`, `src/util/channel.rs` and the relevant parts of
`src/error.rs` and `src/model.rs`.  Rust `f64` prices and quantities are
embedded as `Rat` (the order-book values of interest are exact decimals);
the map key `price.to_string()` is embedded as `ratKey`, a decimal
rendering of the rational, ordered by `strLt`, the byte-wise
lexicographic `String` order Rust uses (code-point order coincides with
byte order on these ASCII keys).
Rust `HashMap` is embedded as an association list observed only through
`lookup`/`insert`/`remove`; `BinaryHeap` as a plain list observed only
through its maximum (`peek`).  A Rust panic (`Option::unwrap` on `None`)
is embedded as the `none` result of an `Option`-returning function.
-/

/-- Fuel-bounded long division: the decimal digits of `r / d` for a
remainder `0 ≤ r < d`, mirroring how Rust renders the fractional digits
of these exact-decimal `f64` values. -/
def fracDigits : Nat → Nat → Nat → String
  | 0, _, _ => ""
  | fuel+1, d, r =>
    if r = 0 then ""
    else
      let r10 := r * 10
      Nat.repr (r10 / d) ++ fracDigits fuel d (r10 % d)

/-- Embedding of Rust `f64::to_string` on exact decimals: the string key
used by the aggregator's sorted maps (`price.to_string()` in
`src/util/mod.rs`). -/
def ratKey (q : Rat) : String :=
  let sign := if q < 0 then "-" else ""
  let n := q.num.natAbs
  let d := q.den
  let ip := n / d
  let r := n % d
  if r = 0 then sign ++ Nat.repr ip
  else sign ++ Nat.repr ip ++ "." ++ fracDigits 40 d r

/-- `SortedMapOrder` from `src/util/collections.rs`. -/
inductive SortedMapOrder where
  | ascending
  | descending
deriving DecidableEq, Repr

/-- Rust's `Ord` on `String` compares UTF-8 bytes lexicographically; on
these ASCII keys that is code-point order on the character lists. -/
def strLtB : List Char → List Char → Bool
  | [], [] => false
  | [], _ :: _ => true
  | _ :: _, [] => false
  | a :: as_, b :: bs =>
    if a.toNat < b.toNat then true
    else if b.toNat < a.toNat then false
    else strLtB as_ bs

/-- Rust's `String` ordering used by `BinaryHeap<String>`. -/
def strLt (a b : String) : Bool := strLtB a.data b.data

/-- Greatest element of a list of strings: the observable content of
`BinaryHeap<K>::peek` (a max-heap). -/
def heapMax : List String → Option String
  | [] => none
  | x :: xs =>
    match heapMax xs with
    | none => some x
    | some m => some (if strLt m x then x else m)

/-- Least element of a list of strings: the observable content of
`BinaryHeap<Reverse<K>>::peek`. -/
def heapMin : List String → Option String
  | [] => none
  | x :: xs =>
    match heapMin xs with
    | none => some x
    | some m => some (if strLt x m then x else m)

/-- `HashMap::insert`: replace the value at `k` if present, else add the
binding.  Position in the association list is unobservable (the map is
only read through `lookup`). -/
def assocUpsert {α : Type} (k : String) (v : α) :
    List (String × α) → List (String × α)
  | [] => [(k, v)]
  | (k', v') :: rest =>
    if k' = k then (k, v) :: rest else (k', v') :: assocUpsert k v rest

/-- `SortedMap<String, (f64, f64)>` from `src/util/collections.rs`,
at the one instantiation the aggregator uses: key `String`
(the price rendered by `ratKey`), value `(price, quantity)`. -/
structure SortedMap where
  map : List (String × (Rat × Rat))
  keys : List String
  reverseKeys : List String
  order : SortedMapOrder
deriving DecidableEq, Repr

namespace SortedMap

/-- `SortedMap::new`. -/
def new (o : SortedMapOrder) : SortedMap :=
  { map := [], keys := [], reverseKeys := [], order := o }

/-- `SortedMap::peek`: greatest key for `Descending` (max-heap of keys),
least key for `Ascending` (max-heap of `Reverse` keys), then the map
lookup at that key. -/
def peek (m : SortedMap) : Option (String × (Rat × Rat)) :=
  if m.order = SortedMapOrder.descending then
    (heapMax m.keys).bind fun k => (m.map.lookup k).map fun v => (k, v)
  else
    (heapMin m.reverseKeys).bind fun k => (m.map.lookup k).map fun v => (k, v)

/-- `SortedMap::insert`: push the key onto the heap matching the order,
then `HashMap::insert`. -/
def insert (m : SortedMap) (k : String) (v : Rat × Rat) : SortedMap :=
  let m' :=
    if m.order = SortedMapOrder.descending then
      { m with keys := k :: m.keys }
    else
      { m with reverseKeys := k :: m.reverseKeys }
  { m' with map := assocUpsert k v m'.map }

/-- `SortedMap::remove`: `HashMap::remove` plus `retain`-ing every heap
entry different from the key. -/
def remove (m : SortedMap) (k : String) : SortedMap :=
  { m with
    map := m.map.filter (fun p => p.1 ≠ k),
    keys := m.keys.filter (fun x => x ≠ k),
    reverseKeys := m.reverseKeys.filter (fun x => x ≠ k) }

end SortedMap

/-- `OrderBookUnit` from `src/model.rs` (a price level). -/
structure OrderBookUnit where
  price : Rat
  amount : Rat
deriving DecidableEq, Repr

/-- `OrderBookDiff` from `src/util/mod.rs`. -/
structure OrderBookDiff where
  first_update_id : Int
  final_update_id : Int
  bids : List OrderBookUnit
  asks : List OrderBookUnit
  timestamp : Option Int
deriving DecidableEq, Repr

/-- `Market` is only used as a map key with field-wise equality and
hashing; a string identity suffices for the embedding. -/
abbrev Market := String

/-- `OrderBook` from `src/model.rs`, restricted to the fields the
aggregator reads or writes. -/
structure OrderBook where
  bids : List OrderBookUnit
  asks : List OrderBookUnit
  market : Market
  timestamp : Option Int
  last_update_id : Option Int
deriving DecidableEq, Repr

/-- `OrderBook::default()`. -/
def OrderBook.default : OrderBook :=
  { bids := [], asks := [], market := "", timestamp := none,
    last_update_id := none }

/-- The variants of `Error` (`src/error.rs`) reachable from the order-book
core. -/
inductive Error where
  | invalidOrderBook (msg : String)
  | invalidMarket
deriving DecidableEq, Repr

/-- `handle_order_book` from `src/util/mod.rs`: quantity zero removes the
price key, otherwise the key is inserted/overwritten with
`(price, quantity)`. -/
def handle_order_book (u : OrderBookUnit) (m : SortedMap) : SortedMap :=
  if u.amount = 0 then
    m.remove (ratKey u.price)
  else
    m.insert (ratKey u.price) (u.price, u.amount)

/-- `OrderBookAggregator` from `src/util/mod.rs`. -/
structure OrderBookAggregator where
  bids : SortedMap
  asks : SortedMap
  last_update_id : Int
  buffer : Option (List OrderBookDiff)
  is_synchronized : Bool
deriving DecidableEq, Repr

/-- Application of one diff's levels, shared verbatim by the
synchronized branch of `OrderBookAggregator::append_and_get` (whose
inline per-level rule repeats the body of `handle_order_book`) and by
the drain loop of `OrderBookAggregator::snapshot`: every bid and ask
level is handled by the quantity-zero-removes rule and
`last_update_id` advances to the diff's `final_update_id`. -/
def applyDiffLevels (st : OrderBookAggregator) (diff : OrderBookDiff) :
    OrderBookAggregator :=
  { st with
    bids := diff.bids.foldl (fun m u => handle_order_book u m) st.bids,
    asks := diff.asks.foldl (fun m u => handle_order_book u m) st.asks,
    last_update_id := diff.final_update_id }

/-- One iteration of the drain loop of `OrderBookAggregator::snapshot`:
a buffered diff whose `final_update_id` is at most the snapshot's
`last_update_id` is skipped (`continue`), the rest are applied. -/
def snapshotDrainStep (luid : Int) (st : OrderBookAggregator)
    (diff : OrderBookDiff) : OrderBookAggregator :=
  if diff.final_update_id ≤ luid then st else applyDiffLevels st diff

namespace OrderBookAggregator

/-- `OrderBookAggregator::new`. -/
def new : OrderBookAggregator :=
  { bids := SortedMap.new SortedMapOrder.descending,
    asks := SortedMap.new SortedMapOrder.ascending,
    last_update_id := 0,
    buffer := some [],
    is_synchronized := false }

/-- `OrderBookAggregator::snapshot`.  Rust mutates `self` and returns a
`Result`; the embedding returns the new state paired with the result.
Both `unwrap`s in the Rust body are guarded by the early `is_none`
checks, so the function is total. -/
def snapshot (a : OrderBookAggregator) (order_book : OrderBook) :
    OrderBookAggregator × Except Error Unit :=
  if a.is_synchronized then
    (a, Except.error (Error.invalidOrderBook "already synchronized"))
  else if a.buffer.isNone then
    (a, Except.error (Error.invalidOrderBook "no buffer"))
  else
    match order_book.last_update_id with
    | none => (a, Except.error (Error.invalidOrderBook "no last update id"))
    | some luid =>
      let bids1 := order_book.bids.foldl (fun m u => handle_order_book u m) a.bids
      let asks1 := order_book.asks.foldl (fun m u => handle_order_book u m) a.asks
      let a1 : OrderBookAggregator :=
        { a with bids := bids1, asks := asks1, last_update_id := luid,
                 buffer := none }
      let a2 := (a.buffer.getD []).foldl (snapshotDrainStep luid) a1
      ({ a2 with is_synchronized := true }, Except.ok ())

/-- `OrderBookAggregator::get`: read-only best-bid/best-ask
materialization. -/
def get (a : OrderBookAggregator) : Except Error OrderBook :=
  if a.is_synchronized = false then
    Except.error (Error.invalidOrderBook "not synchronized")
  else
    match a.bids.peek with
    | none => Except.error (Error.invalidOrderBook "no bid")
    | some bb =>
      match a.asks.peek with
      | none => Except.error (Error.invalidOrderBook "no ask")
      | some ba =>
        Except.ok
          { OrderBook.default with
            bids := [{ price := bb.2.1, amount := bb.2.2 }],
            asks := [{ price := ba.2.1, amount := ba.2.2 }] }

/-- `OrderBookAggregator::append_and_get`.  A `none` result embeds the
Rust panic of `self.buffer.as_mut().unwrap()` when the buffer is `None`
in the unsynchronized branch; every other path is `some`. -/
def append_and_get (a : OrderBookAggregator) (diff : OrderBookDiff) :
    Option (OrderBookAggregator × Except Error (Option OrderBook)) :=
  if a.is_synchronized = false then
    match a.buffer with
    | none => none
    | some buf =>
      some ({ a with buffer := some (buf ++ [diff]) }, Except.ok none)
  else if a.is_synchronized ∧ diff.first_update_id ≠ a.last_update_id + 1 then
    some (a, Except.error (Error.invalidOrderBook
      ("invalid update id. diff first update id: " ++
        toString diff.first_update_id ++ ", last update id: " ++
        toString a.last_update_id)))
  else
    let a1 : OrderBookAggregator := applyDiffLevels a diff
    if a1.is_synchronized = false then
      some (a1, Except.ok none)
    else
      match a1.bids.peek with
      | none => some (a1, Except.error (Error.invalidOrderBook "no bid"))
      | some bb =>
        match a1.asks.peek with
        | none => some (a1, Except.error (Error.invalidOrderBook "no ask"))
        | some ba =>
          some (a1, Except.ok (some
            { OrderBook.default with
              bids := [{ price := bb.2.1, amount := bb.2.2 }],
              asks := [{ price := ba.2.1, amount := ba.2.2 }] }))

end OrderBookAggregator

/-- `OrderBookSynchronizer` from `src/util/mod.rs` (the `Mutex` wrappers
disappear in the sequential embedding). -/
structure OrderBookSynchronizer where
  market_order_books : List (Market × OrderBookAggregator)

namespace OrderBookSynchronizer

/-- `OrderBookSynchronizer::new`. -/
def new : OrderBookSynchronizer := { market_order_books := [] }

/-- `OrderBookSynchronizer::init`: `HashMap::insert` of a fresh
aggregator for every listed market (insert replaces an existing
binding). -/
def init (s : OrderBookSynchronizer) (markets : List Market) :
    OrderBookSynchronizer :=
  { market_order_books :=
      markets.foldl
        (fun m mk => assocUpsert mk OrderBookAggregator.new m)
        s.market_order_books }

/-- `OrderBookSynchronizer::snapshot`: look up the market's aggregator,
fail with `InvalidMarket` if absent, else delegate. -/
def snapshot (s : OrderBookSynchronizer) (market : Market)
    (order_book : OrderBook) : OrderBookSynchronizer × Except Error Unit :=
  match s.market_order_books.lookup market with
  | none => (s, Except.error Error.invalidMarket)
  | some agg =>
    let r := agg.snapshot order_book
    ({ market_order_books := assocUpsert market r.1 s.market_order_books },
      r.2)

/-- `OrderBookSynchronizer::get`. -/
def get (s : OrderBookSynchronizer) (market : Market) :
    Except Error OrderBook :=
  match s.market_order_books.lookup market with
  | none => Except.error Error.invalidMarket
  | some agg => agg.get

end OrderBookSynchronizer

/-- Aggregator states reachable from `OrderBookAggregator::new` by any
sequence of `snapshot` and `append_and_get` calls (failed calls
included; an `append_and_get` that panics produces no new state). -/
inductive Reachable : OrderBookAggregator → Prop where
  | base : Reachable OrderBookAggregator.new
  | snap (a : OrderBookAggregator) (ob : OrderBook) :
      Reachable a → Reachable (a.snapshot ob).1
  | app (a : OrderBookAggregator) (diff : OrderBookDiff)
      (st : OrderBookAggregator) (r : Except Error (Option OrderBook)) :
      Reachable a → a.append_and_get diff = some (st, r) → Reachable st

/-- Spec-side restatement of the synchronization step, following the
spec's words: apply every snapshot level, set `last_applied_update_id`
to the snapshot's `last_update_id`, discard exactly the buffered diffs
whose `final_update_id ≤ last_update_id`, apply the remaining buffered
diffs in arrival order advancing `last_applied_update_id` to each
consumed diff's `final_update_id`, and set `synchronized = true` after
the buffer is drained. -/
def snapshotSpecFn (a : OrderBookAggregator) (order_book : OrderBook)
    (luid : Int) (buf : List OrderBookDiff) : OrderBookAggregator :=
  let bids1 := order_book.bids.foldl (fun m u => handle_order_book u m) a.bids
  let asks1 := order_book.asks.foldl (fun m u => handle_order_book u m) a.asks
  let kept := buf.filter (fun d => !(d.final_update_id ≤ luid))
  let a1 : OrderBookAggregator :=
    { a with bids := bids1, asks := asks1, last_update_id := luid,
             buffer := none }
  let a2 := kept.foldl applyDiffLevels a1
  { a2 with is_synchronized := true }

/-- The variants of `WatchError` (`src/error.rs`).  Note that the enum
has no overflow-specific variant. -/
inductive WatchError where
  | notImplemented
  | websocketError (s : String)
  | symbolNotFound (s : String)
  | notConnected
  | disconnected
  | errorResponse (s : String)
  | invalidResponse (s : String)
  | deserializeJsonBody (s : String)
  | parseError (s : String)
  | streamError (s : String)
  | unknownError (s : String)
deriving DecidableEq, Repr

/-- `async_broadcast::RecvError` as observed by the channel wrapper
(`src/util/channel.rs`). -/
inductive RecvError where
  | overflowed (n : Nat)
  | closed
deriving DecidableEq, Repr

/-- `From<async_broadcast::RecvError> for WatchError`
(`src/error.rs`): `Overflowed(n)` is collapsed into
`UnknownError(n.to_string())`, `Closed` into `NotConnected`. -/
def watch_error_from_recv : RecvError → WatchError
  | RecvError.overflowed n => WatchError.unknownError (Nat.repr n)
  | RecvError.closed => WatchError.notConnected

/-- Rust `derive(Debug)` rendering of the embedded `Error` variants. -/
def Error.debugFmt : Error → String
  | Error.invalidOrderBook s => "InvalidOrderBook(\"" ++ s ++ "\")"
  | Error.invalidMarket => "InvalidMarket"

/-- The catch-all arm of `From<Error> for WatchError` (`src/error.rs`):
every `Error` variant of the order-book core falls through to
`UnknownError(format Debug)`. -/
def watch_error_from_error (e : Error) : WatchError :=
  WatchError.unknownError e.debugFmt

/-- Modelled from the spec: the bounded broadcast channel of the external
`async_broadcast` crate (not part of this repository's sources) in the
overflow mode that `Sender::new` in `src/util/channel.rs` enables via
`set_overflow(true)`.  `sent` is the full publication history; the
channel retains only the last `capacity` items, and each receiver is a
cursor (count of items already consumed) into the history. -/
structure BroadcastChannel (α : Type) where
  capacity : Nat
  sent : List α

/-- Modelled from the spec: publishing never blocks on a slow consumer;
it is a total function that appends to the history (older items beyond
`capacity` simply become unreachable for lagging cursors). -/
def BroadcastChannel.send {α : Type} (c : BroadcastChannel α) (x : α) :
    BroadcastChannel α :=
  { c with sent := c.sent ++ [x] }

/-- Outcome of one receive at the `async_broadcast` layer: an item with
the advanced cursor, an error with the repositioned cursor, or a
would-block state. -/
inductive RecvResult (α : Type) where
  | item (x : α) (pos : Nat)
  | fail (e : RecvError) (pos : Nat)
  | pending
deriving DecidableEq

/-- Modelled from the spec: a receive at cursor `pos`.  If the cursor
has fallen more than `capacity` behind the head, the oldest unread
items were dropped for this consumer: it gets `Overflowed(n)` with `n`
the number of missed items and its cursor jumps to the oldest retained
item. -/
def BroadcastChannel.recv {α : Type} (c : BroadcastChannel α) (pos : Nat) :
    RecvResult α :=
  if pos + c.capacity < c.sent.length then
    RecvResult.fail (RecvError.overflowed (c.sent.length - c.capacity - pos))
      (c.sent.length - c.capacity)
  else if h : pos < c.sent.length then
    RecvResult.item (c.sent.get ⟨pos, h⟩) (pos + 1)
  else
    RecvResult.pending

/-- Outcome of one receive at the `Receiver::receive` layer
(`src/util/channel.rs`), after the `?`-conversion through
`From<async_broadcast::RecvError> for WatchError`. -/
inductive RecvResultW (α : Type) where
  | item (x : α) (pos : Nat)
  | fail (e : WatchError) (pos : Nat)
  | pending
deriving DecidableEq

/-- `Receiver::receive` (`src/util/channel.rs`): forwards items and maps
the channel error through `watch_error_from_recv`. -/
def Receiver.receive {α : Type} (c : BroadcastChannel α) (pos : Nat) :
    RecvResultW α :=
  match c.recv pos with
  | RecvResult.item x p => RecvResultW.item x p
  | RecvResult.fail e p => RecvResultW.fail (watch_error_from_recv e) p
  | RecvResult.pending => RecvResultW.pending

/-! ### Concrete fixtures used by witnesses and counterexamples -/

/-- A snapshot anchored at update id 50 with one bid and one ask. -/
def book50 : OrderBook :=
  { bids := [{ price := 1, amount := 1 }],
    asks := [{ price := 2, amount := 2 }],
    market := "", timestamp := none, last_update_id := some 50 }

/-- A synchronized aggregator at `last_update_id = 50` with non-empty
sides, obtained by running the code. -/
def aggSync50 : OrderBookAggregator :=
  (OrderBookAggregator.new.snapshot book50).1

/-- A diff opening a gap (`first = 52` after `last = 50`). -/
def diff52 : OrderBookDiff :=
  { first_update_id := 52, final_update_id := 55, bids := [], asks := [],
    timestamp := none }

/-- A snapshot holding bids at prices 10 and 9.5 and asks at prices 2
and 10. -/
def bookC3 : OrderBook :=
  { bids := [{ price := 10, amount := 1 },
             { price := mkRat 19 2, amount := 1 }],
    asks := [{ price := 2, amount := 1 }, { price := 10, amount := 1 }],
    market := "", timestamp := none, last_update_id := some 5 }

/-- The synchronized aggregator produced by that snapshot. -/
def aggC3 : OrderBookAggregator := (OrderBookAggregator.new.snapshot bookC3).1

/-- A validly-sequenced diff whose `final_update_id` lies below its
`first_update_id` (and below the current `last_update_id`). -/
def diffDec : OrderBookDiff :=
  { first_update_id := 51, final_update_id := 40, bids := [], asks := [],
    timestamp := none }

/-- A synchronizer initialised for one market. -/
def syncS0 : OrderBookSynchronizer := OrderBookSynchronizer.new.init ["BTC"]

/-- The same synchronizer after the market's aggregator has been
snapshotted (and is therefore synchronized). -/
def syncS1 : OrderBookSynchronizer := (syncS0.snapshot "BTC" book50).1

/-- The synchronizer after a second `init` with the same market set. -/
def syncS2 : OrderBookSynchronizer := syncS1.init ["BTC"]

/-- C4 scenario, diff 1: update ids 1..10, no levels. -/
def d1 : OrderBookDiff :=
  { first_update_id := 1, final_update_id := 10, bids := [], asks := [],
    timestamp := none }

/-- C4 scenario, diff 2: update ids 11..20, no levels. -/
def d2 : OrderBookDiff :=
  { first_update_id := 11, final_update_id := 20, bids := [], asks := [],
    timestamp := none }

/-- C4 scenario, diff 3: update ids 21..30, carrying a bid at price 5. -/
def d3 : OrderBookDiff :=
  { first_update_id := 21, final_update_id := 30,
    bids := [{ price := 5, amount := 7 }], asks := [], timestamp := none }

/-- C4 scenario, diff 4: update ids 31..40, carrying a bid at price 6. -/
def d4 : OrderBookDiff :=
  { first_update_id := 31, final_update_id := 40,
    bids := [{ price := 6, amount := 1 }], asks := [], timestamp := none }

/-- C4 scenario, diff 5: update ids 41..50, carrying an ask at price 7. -/
def d5 : OrderBookDiff :=
  { first_update_id := 41, final_update_id := 50, bids := [],
    asks := [{ price := 7, amount := 2 }], timestamp := none }

/-- C4 scenario: an unsynchronized aggregator with D1..D5 buffered (the
state produced by five pre-snapshot `append_and_get` calls). -/
def aggC4 : OrderBookAggregator :=
  { OrderBookAggregator.new with buffer := some [d1, d2, d3, d4, d5] }

/-- C4 scenario: the snapshot S, anchored at `last_update_id = 25`,
strictly inside D3's range 21..30. -/
def snapC4 : OrderBook :=
  { bids := [{ price := 1, amount := 1 }],
    asks := [{ price := 100, amount := 1 }],
    market := "", timestamp := none, last_update_id := some 25 }

/-- C8 witness fixture: a one-level bid map at price 2. -/
def mapC8 : SortedMap :=
  (SortedMap.new SortedMapOrder.descending).insert (ratKey 2) (2, 1)

/-- C9 scenario: a capacity-2 broadcast channel on which five items
have been published. -/
def chanC9 : BroadcastChannel Nat := { capacity := 2, sent := [1, 2, 3, 4, 5] }

/-! ### Helper lemmas -/

lemma assocUpsert_lookup_self {α : Type} (k : String) (v : α)
    (l : List (String × α)) : (assocUpsert k v l).lookup k = some v := by
  induction l with
  | nil => simp [assocUpsert, List.lookup]
  | cons p rest ih =>
    obtain ⟨k', v'⟩ := p
    by_cases h : k' = k
    · simp [assocUpsert, h, List.lookup]
    · have hb : (k == k') = false := beq_false_of_ne (Ne.symm h)
      simp [assocUpsert, h, List.lookup, hb, ih]

lemma assocUpsert_lookup_ne {α : Type} {k k' : String} (v : α)
    (l : List (String × α)) (h : k' ≠ k) :
    (assocUpsert k v l).lookup k' = l.lookup k' := by
  induction l with
  | nil =>
    have hb : (k' == k) = false := beq_false_of_ne h
    simp [assocUpsert, List.lookup, hb]
  | cons p rest ih =>
    obtain ⟨k₀, v₀⟩ := p
    by_cases h0 : k₀ = k
    · subst h0
      have hb : (k' == k₀) = false := beq_false_of_ne h
      simp [assocUpsert, List.lookup, hb]
    · simp [assocUpsert, h0, List.lookup, ih]

/-! ### C1 -/

/-- C1: on a synchronized aggregator, applying a diff whose
`first_update_id` differs from `last_update_id + 1` returns the
sequencing-violation error (the spec's `SynchronizationError`, carried
by the code as `InvalidOrderBook("invalid update id. ...")`) and returns
the aggregator state itself unchanged — bids, asks, `last_update_id`,
buffer and flag included — so a subsequent `get` reads the very same
book. -/
theorem c1_apply_gap_rejected_state_unchanged (a : OrderBookAggregator)
    (diff : OrderBookDiff) (hs : a.is_synchronized = true)
    (hgap : diff.first_update_id ≠ a.last_update_id + 1) :
    a.append_and_get diff = some (a, Except.error (Error.invalidOrderBook
      ("invalid update id. diff first update id: " ++
        toString diff.first_update_id ++ ", last update id: " ++
        toString a.last_update_id))) ∧
    (a.append_and_get diff).map (fun p => p.1.get) = some a.get := by
  have h1 : a.append_and_get diff = some (a, Except.error
      (Error.invalidOrderBook
        ("invalid update id. diff first update id: " ++
          toString diff.first_update_id ++ ", last update id: " ++
          toString a.last_update_id))) := by
    simp [OrderBookAggregator.append_and_get, hs, hgap]
  exact ⟨h1, by rw [h1]; rfl⟩

/-- C1 witness: at `last_update_id = 50`, a diff with `first = 52`
(`final = 55`) is rejected with the state unchanged. -/
theorem c1_witness :
    aggSync50.is_synchronized = true ∧
    diff52.first_update_id ≠ aggSync50.last_update_id + 1 ∧
    (aggSync50.append_and_get diff52 = some (aggSync50, Except.error
      (Error.invalidOrderBook
        ("invalid update id. diff first update id: " ++
          toString diff52.first_update_id ++ ", last update id: " ++
          toString aggSync50.last_update_id))) ∧
     (aggSync50.append_and_get diff52).map (fun p => p.1.get) =
       some aggSync50.get) :=
  ⟨rfl, by decide,
    c1_apply_gap_rejected_state_unchanged aggSync50 diff52 rfl (by decide)⟩

/-! ### C7 -/

/-- C7: on an already-synchronized aggregator, any further `snapshot`
fails with the already-synchronized error (the spec's
`AlreadySynchronized`, carried by the code as
`InvalidOrderBook("already synchronized")`) and returns the aggregator
state itself unchanged. -/
theorem c7_snapshot_already_synchronized (a : OrderBookAggregator)
    (ob : OrderBook) (hs : a.is_synchronized = true) :
    a.snapshot ob =
      (a, Except.error (Error.invalidOrderBook "already synchronized")) := by
  simp [OrderBookAggregator.snapshot, hs]

/-- C7 witness: a second snapshot on the synchronized fixture is
rejected and the state is unchanged. -/
theorem c7_witness :
    aggSync50.is_synchronized = true ∧
    aggSync50.snapshot book50 =
      (aggSync50, Except.error
        (Error.invalidOrderBook "already synchronized")) :=
  ⟨rfl, c7_snapshot_already_synchronized aggSync50 book50 rfl⟩

lemma snapshot_main (a : OrderBookAggregator) (ob : OrderBook)
    (buf : List OrderBookDiff) (luid : Int)
    (hs : a.is_synchronized = false) (hb : a.buffer = some buf)
    (hl : ob.last_update_id = some luid) :
    a.snapshot ob =
      ({ (buf.foldl (snapshotDrainStep luid)
          { a with
            bids := ob.bids.foldl (fun m u => handle_order_book u m) a.bids,
            asks := ob.asks.foldl (fun m u => handle_order_book u m) a.asks,
            last_update_id := luid, buffer := none })
          with is_synchronized := true }, Except.ok ()) := by
  rw [OrderBookAggregator.snapshot]
  simp [hs, hb, hl]

lemma drain_eq_filter (luid : Int) (l : List OrderBookDiff)
    (acc : OrderBookAggregator) :
    l.foldl (snapshotDrainStep luid) acc =
      (l.filter (fun d => !(d.final_update_id ≤ luid))).foldl
        applyDiffLevels acc := by
  induction l generalizing acc with
  | nil => rfl
  | cons d rest ih =>
    by_cases hd : d.final_update_id ≤ luid
    · simp [snapshotDrainStep, hd, List.filter_cons, ih]
    · simp [snapshotDrainStep, hd, List.filter_cons, ih]

lemma drain_last_ge (luid : Int) (l : List OrderBookDiff)
    (acc : OrderBookAggregator) (h : luid ≤ acc.last_update_id) :
    luid ≤ (l.foldl (snapshotDrainStep luid) acc).last_update_id := by
  induction l generalizing acc with
  | nil => simpa using h
  | cons d rest ih =>
    simp only [List.foldl_cons]
    apply ih
    by_cases hd : d.final_update_id ≤ luid
    · simpa [snapshotDrainStep, hd] using h
    · simp only [snapshotDrainStep, hd, if_false, applyDiffLevels]
      omega

lemma append_sync_fst (a : OrderBookAggregator) (diff : OrderBookDiff)
    (hs : a.is_synchronized = true)
    (hgap : diff.first_update_id = a.last_update_id + 1) :
    (a.append_and_get diff).map Prod.fst =
      some (applyDiffLevels a diff) := by
  rw [OrderBookAggregator.append_and_get]
  have ha1 : (applyDiffLevels a diff).is_synchronized = true := by
    simpa [applyDiffLevels] using hs
  simp only [hs, hgap, ha1]
  simp only [Bool.true_eq_false, if_false, ne_eq, not_true_eq_false,
    and_false, if_false]
  rcases hb : (applyDiffLevels a diff).bids.peek with _ | bb
  · simp [hb]
  · rcases hk : (applyDiffLevels a diff).asks.peek with _ | ba
    · simp [hb, hk]
    · simp [hb, hk]

/-! ### C3 -/



/-- C3 failing input: the sorted maps are keyed by the decimal string of
the price and ordered lexicographically, not numerically.  With bids at
10 and 9.5 both stored, `get` returns best bid 9.5 (because
`"10" < "9.5"` as strings) although 9.5 < 10 numerically; with asks at
2 and 10 both stored, it returns best ask 10 although 2 < 10.  This
contradicts the claim (and the code's evident intent) that the best bid
is the numerically greatest bid and the best ask the numerically least
ask. -/
theorem c3_failing_eval :
    aggC3.is_synchronized = true ∧
    aggC3.bids.map.lookup (ratKey 10) = some (10, 1) ∧
    aggC3.bids.map.lookup (ratKey (mkRat 19 2)) = some (mkRat 19 2, 1) ∧
    aggC3.asks.map.lookup (ratKey 2) = some (2, 1) ∧
    aggC3.asks.map.lookup (ratKey 10) = some (10, 1) ∧
    aggC3.get = Except.ok
      { bids := [{ price := mkRat 19 2, amount := 1 }],
        asks := [{ price := 10, amount := 1 }],
        market := "", timestamp := none, last_update_id := none } ∧
    ((mkRat 19 2 : Rat) < 10 ∧ (2 : Rat) < 10) ∧
    (strLt "10" "9.5" = true ∧ strLt "10" "2" = true) :=
  ⟨rfl, by decide, by decide, by decide, by decide, by rfl,
    ⟨by decide, by decide⟩, ⟨by decide, by decide⟩⟩

/-! ### C5 -/



/-- C5 counterexample: from the synchronized fixture at
`last_update_id = 50`, applying `diff{first = 51, final = 40}` passes
the successor check, returns `Ok`, and lowers `last_update_id` from 50
to 40 — so `last_applied_update_id` is not monotone for an `Ok`-returning
apply whose diff has `final_update_id < first_update_id`. -/
theorem c5_counterexample :
    aggSync50.last_update_id = 50 ∧
    aggSync50.is_synchronized = true ∧
    aggSync50.append_and_get diffDec =
      some ({ aggSync50 with last_update_id := 40 }, Except.ok (some
        { bids := [{ price := 1, amount := 1 }],
          asks := [{ price := 2, amount := 2 }],
          market := "", timestamp := none, last_update_id := none })) ∧
    (40 : Int) < 50 :=
  ⟨by decide, rfl, by rfl, by decide⟩

/-- C5 amended: `last_applied_update_id` is nondecreasing across a
synchronized `append_and_get` provided the diff's range is not inverted
(`first_update_id ≤ final_update_id`), and a successful `snapshot`
leaves it at least the snapshot's `last_update_id` (each drained diff
only moves it to a `final_update_id` above that anchor).  Without the
range condition an `Ok`-returning apply can decrease it
(`c5_counterexample`). -/
theorem c5_amended_monotone :
    (∀ (a : OrderBookAggregator) (diff : OrderBookDiff)
        (st : OrderBookAggregator) (r : Except Error (Option OrderBook)),
        a.is_synchronized = true →
        diff.first_update_id ≤ diff.final_update_id →
        a.append_and_get diff = some (st, r) →
        a.last_update_id ≤ st.last_update_id) ∧
    (∀ (a : OrderBookAggregator) (ob : OrderBook)
        (st : OrderBookAggregator) (luid : Int),
        ob.last_update_id = some luid →
        a.snapshot ob = (st, Except.ok ()) →
        luid ≤ st.last_update_id) := by
  constructor
  · intro a diff st r hs hrange happ
    by_cases hgap : diff.first_update_id = a.last_update_id + 1
    · have hfst := append_sync_fst a diff hs hgap
      rw [happ] at hfst
      simp only [Option.map_some', Option.some.injEq] at hfst
      have : st = applyDiffLevels a diff := hfst
      subst this
      simp only [applyDiffLevels]
      omega
    · rw [OrderBookAggregator.append_and_get] at happ
      simp only [hs, Bool.true_eq_false, if_false, hgap, ne_eq,
        not_false_eq_true, and_true, if_true, Option.some.injEq,
        Prod.mk.injEq] at happ
      obtain ⟨h1, _⟩ := happ
      subst h1
      exact le_refl _
  · intro a ob st luid hl hsnap
    rw [OrderBookAggregator.snapshot] at hsnap
    by_cases hs : a.is_synchronized
    · simp [hs] at hsnap
    · by_cases hb : a.buffer.isNone
      · simp [hs, hb] at hsnap
      · rw [hl] at hsnap
        simp only [hs, Bool.false_eq_true, if_false, hb, if_false,
          Prod.mk.injEq] at hsnap
        obtain ⟨h1, _⟩ := hsnap
        subst h1
        exact drain_last_ge luid _ _ (le_refl _)

/-- C5 witness for the amended statement: the apply part at a
concretely in-range diff and the snapshot part at the fixture
snapshot. -/
theorem c5_amended_witness :
    aggSync50.is_synchronized = true ∧
    diff52.first_update_id ≤ diff52.final_update_id ∧
    book50.last_update_id = some 50 ∧
    aggSync50.last_update_id ≤
      ({ aggSync50 with last_update_id := 55 } : OrderBookAggregator).last_update_id ∧
    (50 : Int) ≤ ((OrderBookAggregator.new.snapshot book50).1).last_update_id := by
  refine ⟨rfl, by decide, rfl, ?_, ?_⟩
  · exact c5_amended_monotone.1 aggSync50
      { diff52 with first_update_id := 51 }
      { aggSync50 with last_update_id := 55 } (Except.ok (some
        { bids := [{ price := 1, amount := 1 }],
          asks := [{ price := 2, amount := 2 }],
          market := "", timestamp := none, last_update_id := none }))
      rfl (by decide) (by rfl)
  · exact c5_amended_monotone.2 OrderBookAggregator.new book50
      (OrderBookAggregator.new.snapshot book50).1 50 rfl (by rfl)

/-! ### C6 -/



/-- C6 counterexample: before the second `init` the market's aggregator
is synchronized at update id 50; after the second `init` it is the
fresh unsynchronized `OrderBookAggregator::new` — `init` resets the
aggregator instead of leaving it intact, because
`HashMap::insert` replaces the existing entry. -/
theorem c6_counterexample :
    (syncS1.market_order_books.lookup "BTC").map
      (fun a => (a.is_synchronized, a.last_update_id)) = some (true, 50) ∧
    syncS2.market_order_books.lookup "BTC" = some OrderBookAggregator.new ∧
    (syncS2.market_order_books.lookup "BTC").map
      (fun a => (a.is_synchronized, a.last_update_id)) = some (false, 0) :=
  ⟨by decide, by decide, by decide⟩

lemma init_foldl_lookup (mk : Market) (markets : List Market)
    (acc : List (Market × OrderBookAggregator))
    (h : mk ∈ markets ∨ acc.lookup mk = some OrderBookAggregator.new) :
    (markets.foldl (fun m mk' => assocUpsert mk' OrderBookAggregator.new m)
        acc).lookup mk = some OrderBookAggregator.new := by
  induction markets generalizing acc with
  | nil =>
    rcases h with h | h
    · cases h
    · simpa using h
  | cons m0 rest ih =>
    simp only [List.foldl_cons]
    apply ih
    by_cases h0 : mk = m0
    · subst h0
      right
      exact assocUpsert_lookup_self mk OrderBookAggregator.new acc
    · rcases h with h | h
      · rcases List.mem_cons.mp h with h | h
        · exact absurd h h0
        · exact Or.inl h
      · right
        rw [assocUpsert_lookup_ne OrderBookAggregator.new acc h0]
        exact h

/-- C6 amended: `init` is not idempotent on a synchronized aggregator —
for every prior synchronizer state, after `init(markets)` every market
in the list maps to the fresh unsynchronized
`OrderBookAggregator::new`; a second `init` therefore resets any
previously synchronized state for those markets. -/
theorem c6_amended_init_resets (s : OrderBookSynchronizer)
    (markets : List Market) (mk : Market) (h : mk ∈ markets) :
    ((s.init markets).market_order_books.lookup mk) =
      some OrderBookAggregator.new := by
  exact init_foldl_lookup mk markets s.market_order_books (Or.inl h)

/-- C6 witness: the second `init` on the synchronized fixture maps
"BTC" to the fresh aggregator. -/
theorem c6_witness :
    "BTC" ∈ ["BTC"] ∧
    (syncS1.init ["BTC"]).market_order_books.lookup "BTC" =
      some OrderBookAggregator.new :=
  ⟨by decide, c6_amended_init_resets syncS1 ["BTC"] "BTC" (by decide)⟩

/-! ### C2 -/

/-- C2: before synchronization, `append_and_get` appends the diff to the
FIFO buffer, leaves every price level (and `last_update_id`) untouched
and returns `Ok(None)`; and `snapshot` applies every snapshot level,
sets `last_update_id` to the snapshot's anchor, discards exactly the
buffered diffs with `final_update_id ≤` that anchor, applies the
remaining buffered diffs in arrival order advancing `last_update_id`
to each consumed diff's `final_update_id`, and sets
`synchronized = true` only after the buffer is drained (the buffer is
consumed) — the code equals the spec-side `snapshotSpecFn`. -/
theorem c2_buffering_and_drain :
    (∀ (a : OrderBookAggregator) (buf : List OrderBookDiff)
        (diff : OrderBookDiff),
        a.is_synchronized = false → a.buffer = some buf →
        a.append_and_get diff =
          some ({ a with buffer := some (buf ++ [diff]) },
            Except.ok none)) ∧
    (∀ (a : OrderBookAggregator) (buf : List OrderBookDiff)
        (ob : OrderBook) (luid : Int),
        a.is_synchronized = false → a.buffer = some buf →
        ob.last_update_id = some luid →
        a.snapshot ob = (snapshotSpecFn a ob luid buf, Except.ok ())) := by
  constructor
  · intro a buf diff hs hb
    rw [OrderBookAggregator.append_and_get]
    simp [hs, hb]
  · intro a buf ob luid hs hb hl
    rw [snapshot_main a ob buf luid hs hb hl]
    simp only [snapshotSpecFn]
    rw [drain_eq_filter]

/-- C2 witness: buffering a diff into the fresh aggregator, and
synchronizing the C4 fixture, both evaluated concretely. -/
theorem c2_witness :
    OrderBookAggregator.new.is_synchronized = false ∧
    OrderBookAggregator.new.buffer = some [] ∧
    snapC4.last_update_id = some 25 ∧
    OrderBookAggregator.new.append_and_get diff52 =
      some ({ OrderBookAggregator.new with buffer := some [diff52] },
        Except.ok none) ∧
    aggC4.snapshot snapC4 =
      (snapshotSpecFn aggC4 snapC4 25 [d1, d2, d3, d4, d5],
        Except.ok ()) :=
  ⟨rfl, rfl, rfl,
    c2_buffering_and_drain.1 OrderBookAggregator.new [] diff52 rfl rfl,
    c2_buffering_and_drain.2 aggC4 [d1, d2, d3, d4, d5] snapC4 25
      rfl rfl rfl⟩

/-! ### C4 -/

/-- C4 counterexample: with D1..D5 buffered and the snapshot anchored
at 25 — strictly inside D3's range 21..30 — the code's post-snapshot
book contains the bid at price 5 contributed by D3 (because the drain
only discards diffs with `final_update_id ≤ 25`, and D3's final id is
30), while the book built per the claim (apply S, then D4 and D5 only)
does not; the two states differ, so D3 does contribute levels. -/
theorem c4_counterexample :
    d3.first_update_id ≤ 25 ∧ (25 : Int) < d3.final_update_id ∧
    (aggC4.snapshot snapC4).2 = Except.ok () ∧
    ((aggC4.snapshot snapC4).1).is_synchronized = true ∧
    ((aggC4.snapshot snapC4).1).bids.map.lookup (ratKey 5) = some (5, 7) ∧
    (snapshotSpecFn aggC4 snapC4 25 [d4, d5]).bids.map.lookup (ratKey 5) =
      none ∧
    (aggC4.snapshot snapC4).1 ≠ snapshotSpecFn aggC4 snapC4 25 [d4, d5] :=
  ⟨by decide, by decide, by rfl, by decide, by decide, by decide, by decide⟩

/-- C4 amended: with D1..D5 buffered and the snapshot anchor luid
inside D3's range (so D1 and D2 end at or before luid and D3, D4, D5
end after it), the post-snapshot state equals applying S's levels and
then D3, D4 and D5 — D3 in full, not discarded — in arrival order,
with `synchronized = true` and the buffer consumed. -/
theorem c4_amended_d3_applied (a : OrderBookAggregator)
    (D1 D2 D3 D4 D5 : OrderBookDiff) (ob : OrderBook) (luid : Int)
    (hs : a.is_synchronized = false)
    (hb : a.buffer = some [D1, D2, D3, D4, D5])
    (hl : ob.last_update_id = some luid)
    (h1 : D1.final_update_id ≤ luid) (h2 : D2.final_update_id ≤ luid)
    (_h3a : D3.first_update_id ≤ luid) (h3 : luid < D3.final_update_id)
    (h4 : luid < D4.final_update_id) (h5 : luid < D5.final_update_id) :
    a.snapshot ob =
      ({ (applyDiffLevels (applyDiffLevels (applyDiffLevels
          { a with
            bids := ob.bids.foldl (fun m u => handle_order_book u m) a.bids,
            asks := ob.asks.foldl (fun m u => handle_order_book u m) a.asks,
            last_update_id := luid, buffer := none } D3) D4) D5)
        with is_synchronized := true }, Except.ok ()) := by
  rw [snapshot_main a ob [D1, D2, D3, D4, D5] luid hs hb hl]
  have h3' : ¬ D3.final_update_id ≤ luid := by omega
  have h4' : ¬ D4.final_update_id ≤ luid := by omega
  have h5' : ¬ D5.final_update_id ≤ luid := by omega
  simp [snapshotDrainStep, h1, h2, h3', h4', h5']

/-- C4 witness: the amended statement evaluated on the concrete D1..D5
and S of the scenario. -/
theorem c4_witness :
    aggC4.is_synchronized = false ∧
    aggC4.buffer = some [d1, d2, d3, d4, d5] ∧
    snapC4.last_update_id = some 25 ∧
    d1.final_update_id ≤ 25 ∧ d2.final_update_id ≤ 25 ∧
    d3.first_update_id ≤ 25 ∧ (25 : Int) < d3.final_update_id ∧
    (25 : Int) < d4.final_update_id ∧ (25 : Int) < d5.final_update_id ∧
    aggC4.snapshot snapC4 =
      ({ (applyDiffLevels (applyDiffLevels (applyDiffLevels
          { aggC4 with
            bids := snapC4.bids.foldl
              (fun m u => handle_order_book u m) aggC4.bids,
            asks := snapC4.asks.foldl
              (fun m u => handle_order_book u m) aggC4.asks,
            last_update_id := 25, buffer := none } d3) d4) d5)
        with is_synchronized := true }, Except.ok ()) :=
  ⟨rfl, rfl, rfl, by decide, by decide, by decide, by decide, by decide,
    by decide,
    c4_amended_d3_applied aggC4 d1 d2 d3 d4 d5 snapC4 25 rfl rfl rfl
      (by decide) (by decide) (by decide) (by decide) (by decide)
      (by decide)⟩

/-! ### C8 -/

lemma lookup_filter_out {α : Type} (k : String) (l : List (String × α)) :
    (l.filter (fun p => p.1 ≠ k)).lookup k = none := by
  induction l with
  | nil => rfl
  | cons p rest ih =>
    obtain ⟨k0, v0⟩ := p
    by_cases h : k0 = k
    · subst h
      simpa only [List.filter_cons, ne_eq, decide_not, decide_True,
        Bool.not_true, Bool.false_eq_true, if_false] using ih
    · have hd : (decide ¬(k0 = k)) = true := by simp [h]
      have hb : (k == k0) = false := beq_false_of_ne (Ne.symm h)
      simp only [List.filter_cons, ne_eq, hd, if_true, List.lookup, hb]
      exact ih

lemma lookup_filter_other {α : Type} {k k' : String} (h : k' ≠ k)
    (l : List (String × α)) :
    (l.filter (fun p => p.1 ≠ k)).lookup k' = l.lookup k' := by
  induction l with
  | nil => rfl
  | cons p rest ih =>
    obtain ⟨k0, v0⟩ := p
    by_cases h0 : k0 = k
    · subst h0
      have hb : (k' == k0) = false := beq_false_of_ne h
      simp only [List.filter_cons, ne_eq, decide_not, decide_True,
        Bool.not_true, Bool.false_eq_true, if_false, List.lookup, hb]
      exact (by simpa only [ne_eq, decide_not] using ih)
    · have hd : (decide ¬(k0 = k)) = true := by simp [h0]
      simp only [List.filter_cons, ne_eq, hd, if_true, List.lookup]
      cases hbe : (k' == k0) with
      | true => rfl
      | false => exact (by simpa only [ne_eq, decide_not] using ih)

lemma lookup_none_key_ne {α : Type} (k : String)
    (l : List (String × α)) (h : l.lookup k = none) :
    ∀ p ∈ l, p.1 ≠ k := by
  induction l with
  | nil => intro p hp; cases hp
  | cons q rest ih =>
    obtain ⟨k0, v0⟩ := q
    intro p hp
    by_cases h0 : k = k0
    · subst h0
      simp [List.lookup] at h
    · have hb : (k == k0) = false := beq_false_of_ne h0
      simp only [List.lookup, hb] at h
      rcases List.mem_cons.mp hp with hp | hp
      · subst hp
        exact fun hk => h0 hk.symm
      · exact ih h p hp

lemma insert_map_eq (m : SortedMap) (k : String) (v : Rat × Rat) :
    (m.insert k v).map = assocUpsert k v m.map := by
  rw [SortedMap.insert]
  by_cases h : m.order = SortedMapOrder.descending <;> simp [h]

/-- C8: the level-application rule shared by `append_and_get`'s
synchronized branch and the snapshot path (`handle_order_book`): a
quantity-zero level removes the price key if present and leaves no
other key disturbed; a quantity-zero level whose price is absent is a
no-op on the whole side (and no error is signalled — the function
total-returns the map); a nonzero level inserts or overwrites the level
at that price and disturbs no other key. -/
theorem c8_deletion_semantics (m : SortedMap) (u : OrderBookUnit) :
    (u.amount = 0 →
      (handle_order_book u m).map.lookup (ratKey u.price) = none ∧
      (∀ k, k ≠ ratKey u.price →
        (handle_order_book u m).map.lookup k = m.map.lookup k)) ∧
    (u.amount = 0 → m.map.lookup (ratKey u.price) = none →
      (ratKey u.price) ∉ m.keys → (ratKey u.price) ∉ m.reverseKeys →
      handle_order_book u m = m) ∧
    (u.amount ≠ 0 →
      (handle_order_book u m).map.lookup (ratKey u.price) =
        some (u.price, u.amount) ∧
      (∀ k, k ≠ ratKey u.price →
        (handle_order_book u m).map.lookup k = m.map.lookup k)) := by
  refine ⟨?_, ?_, ?_⟩
  · intro hz
    rw [handle_order_book, if_pos hz]
    exact ⟨lookup_filter_out _ _, fun k hk => lookup_filter_other hk _⟩
  · intro hz habs hk hrk
    rw [handle_order_book, if_pos hz, SortedMap.remove]
    have hmap : m.map.filter (fun p => p.1 ≠ ratKey u.price) = m.map :=
      List.filter_eq_self.mpr (by
        intro p hp
        simpa using lookup_none_key_ne _ _ habs p hp)
    have hkeys : m.keys.filter (fun x => x ≠ ratKey u.price) = m.keys :=
      List.filter_eq_self.mpr (by
        intro x hx
        exact decide_eq_true (fun he => hk (by rwa [he] at hx)))
    have hrkeys :
        m.reverseKeys.filter (fun x => x ≠ ratKey u.price) =
          m.reverseKeys :=
      List.filter_eq_self.mpr (by
        intro x hx
        exact decide_eq_true (fun he => hrk (by rwa [he] at hx)))
    cases m
    rw [hmap, hkeys, hrkeys]
  · intro hnz
    rw [handle_order_book, if_neg hnz]
    rw [insert_map_eq]
    exact ⟨assocUpsert_lookup_self _ _ _,
      fun k hk => assocUpsert_lookup_ne _ _ hk⟩

/-- C8 witness: on a one-level bid map at price 2 — deleting price 2
empties it, deleting the absent price 3 is an identity, and re-adding
price 2 with quantity 5 overwrites it. -/
theorem c8_witness :
    ((0 : Rat) = 0 ∧
      (handle_order_book { price := 2, amount := 0 } mapC8).map.lookup
        (ratKey 2) = none) ∧
    (mapC8.map.lookup (ratKey 3) = none ∧ (ratKey 3) ∉ mapC8.keys ∧
      (ratKey 3) ∉ mapC8.reverseKeys ∧
      handle_order_book { price := 3, amount := 0 } mapC8 = mapC8) ∧
    ((5 : Rat) ≠ 0 ∧
      (handle_order_book { price := 2, amount := 5 } mapC8).map.lookup
        (ratKey 2) = some (2, 5)) :=
  ⟨⟨rfl, ((c8_deletion_semantics mapC8 { price := 2, amount := 0 }).1
      rfl).1⟩,
   ⟨by decide, by decide, by decide,
      ((c8_deletion_semantics mapC8 { price := 3, amount := 0 }).2.1
        rfl (by decide) (by decide) (by decide))⟩,
   ⟨by decide, ((c8_deletion_semantics mapC8 { price := 2, amount := 5
      }).2.2 (by decide)).1⟩⟩

/-! ### C10 -/

lemma drain_preserves (luid : Int) (l : List OrderBookDiff)
    (acc : OrderBookAggregator) :
    (l.foldl (snapshotDrainStep luid) acc).buffer = acc.buffer ∧
    (l.foldl (snapshotDrainStep luid) acc).is_synchronized =
      acc.is_synchronized := by
  induction l generalizing acc with
  | nil => exact ⟨rfl, rfl⟩
  | cons d rest ih =>
    simp only [List.foldl_cons]
    refine ⟨?_, ?_⟩ <;>
      [rw [(ih (snapshotDrainStep luid acc d)).1];
       rw [(ih (snapshotDrainStep luid acc d)).2]] <;>
      · rw [snapshotDrainStep]
        by_cases hd : d.final_update_id ≤ luid
        · rw [if_pos hd]
        · rw [if_neg hd]
          rfl

lemma reachable_buffer_iff (a : OrderBookAggregator) (h : Reachable a) :
    a.buffer.isSome ↔ a.is_synchronized = false := by
  induction h with
  | base => simp [OrderBookAggregator.new]
  | snap a ob ha ih =>
    by_cases hs : a.is_synchronized
    · rw [OrderBookAggregator.snapshot]
      simp only [hs, if_true]
      simpa [hs] using ih
    · have hs' : a.is_synchronized = false := by simpa using hs
      by_cases hbn : a.buffer.isNone
      · rw [OrderBookAggregator.snapshot]
        simp only [hs', Bool.false_eq_true, if_false, hbn, if_true]
        simpa [hs'] using ih
      · cases hl : ob.last_update_id with
        | none =>
          rw [OrderBookAggregator.snapshot]
          simp only [hs', Bool.false_eq_true, if_false, hbn, hl]
          simpa [hs'] using ih
        | some luid =>
          obtain ⟨buf, hb2⟩ : ∃ b, a.buffer = some b := by
            cases hb : a.buffer
            · rw [hb] at hbn; simp at hbn
            · exact ⟨_, rfl⟩
          rw [snapshot_main a ob buf luid hs' hb2 hl]
          simp only [(drain_preserves luid buf _).1]
          simp
  | app a diff st r ha happ ih =>
    by_cases hs : a.is_synchronized
    · have hs' : a.is_synchronized = true := by simpa using hs
      by_cases hgap : diff.first_update_id = a.last_update_id + 1
      · have h2 := append_sync_fst a diff hs' hgap
        rw [happ] at h2
        simp only [Option.map_some', Option.some.injEq] at h2
        have hst : st = applyDiffLevels a diff := h2
        subst hst
        simpa [applyDiffLevels] using ih
      · rw [OrderBookAggregator.append_and_get] at happ
        simp only [hs', Bool.true_eq_false, if_false, hgap, ne_eq,
          not_false_eq_true, and_true, if_true, Option.some.injEq,
          Prod.mk.injEq] at happ
        obtain ⟨h1, _⟩ := happ
        subst h1
        exact ih
    · have hs' : a.is_synchronized = false := by simpa using hs
      have hbuf : a.buffer.isSome := ih.mpr hs'
      obtain ⟨buf, hb2⟩ : ∃ b, a.buffer = some b :=
        Option.isSome_iff_exists.mp hbuf
      rw [OrderBookAggregator.append_and_get] at happ
      simp only [hs', if_true, hb2, Option.some.injEq, Prod.mk.injEq]
        at happ
      obtain ⟨h1, _⟩ := happ
      subst h1
      simp [hs']

lemma append_isSome_of_inv (a : OrderBookAggregator)
    (hinv : a.buffer.isSome ↔ a.is_synchronized = false)
    (diff : OrderBookDiff) : (a.append_and_get diff).isSome := by
  rw [OrderBookAggregator.append_and_get]
  by_cases hs : a.is_synchronized
  · have hs' : a.is_synchronized = true := by simpa using hs
    simp only [hs', Bool.true_eq_false, if_false]
    by_cases hgap : diff.first_update_id = a.last_update_id + 1
    · simp only [hs', hgap, ne_eq, not_true_eq_false, and_false, if_false]
      split
      · rfl
      · split
        · rfl
        · split <;> rfl
    · simp [hs', hgap]
  · have hs' : a.is_synchronized = false := by simpa using hs
    obtain ⟨buf, hb2⟩ : ∃ b, a.buffer = some b :=
      Option.isSome_iff_exists.mp (hinv.mpr hs')
    simp [hs', hb2]

/-- C10: in every aggregator state reachable from `new` by any sequence
of `snapshot` and `append_and_get` calls, the pre-snapshot buffer is
present exactly when the aggregator is not synchronized; consequently
`append_and_get` never reaches the panicking `unwrap` (the embedded
panic outcome `none` never occurs), and the `unwrap`s inside `snapshot`
are guarded by its own early checks. -/
theorem c10_buffer_some_iff_unsynchronized (a : OrderBookAggregator)
    (h : Reachable a) :
    (a.buffer.isSome ↔ a.is_synchronized = false) ∧
    (∀ diff, (a.append_and_get diff).isSome) := by
  have hinv := reachable_buffer_iff a h
  exact ⟨hinv, fun diff => append_isSome_of_inv a hinv diff⟩

/-- C10 witness: the invariant and the no-panic conclusion at the
freshly created aggregator and at a concrete diff. -/
theorem c10_witness :
    (OrderBookAggregator.new.buffer.isSome ↔
      OrderBookAggregator.new.is_synchronized = false) ∧
    (OrderBookAggregator.new.append_and_get diff52).isSome :=
  ⟨(c10_buffer_some_iff_unsynchronized OrderBookAggregator.new
      Reachable.base).1,
   (c10_buffer_some_iff_unsynchronized OrderBookAggregator.new
      Reachable.base).2 diff52⟩

/-! ### C9 -/

/-- C9 counterexample: on the capacity-2 channel with five items
published, the lagging consumer at cursor 0 has its three oldest unread
items dropped, but its next receive resolves to
`Err(UnknownError "3")`: the `From<async_broadcast::RecvError>`
conversion in `src/error.rs` collapses `Overflowed(3)` into the generic
catch-all constructor `UnknownError` — the same constructor to which
the blanket `From<Error>` conversion sends unrelated errors such as
`InvalidMarket` — carrying the missed count only as a string.
`WatchError` has no `Overflowed` variant at all, so the error surfaced
to the consumer is not the explicitly distinguishable
`Err(Overflowed(n))` the claim states. -/
theorem c9_counterexample :
    chanC9.recv 0 = RecvResult.fail (RecvError.overflowed 3) 3 ∧
    Receiver.receive chanC9 0 =
      RecvResultW.fail (WatchError.unknownError "3") 3 ∧
    watch_error_from_recv (RecvError.overflowed 3) =
      WatchError.unknownError "3" ∧
    watch_error_from_error Error.invalidMarket =
      WatchError.unknownError "InvalidMarket" :=
  ⟨by decide, by decide, by decide, by decide⟩

/-- C9 amended: the producer's `send` never blocks (it is total and
appends to the history); a consumer that has fallen more than
`capacity` behind has its oldest unread items dropped and its next
receive resolves, through the repository's error conversion, to
`Err(UnknownError(n.to_string()))` where `n` is the number of missed
items — the overflow signal is observable, but it is carried by the
generic `UnknownError` constructor as a string, not by a dedicated
`Overflowed` variant of `WatchError`. -/
theorem c9_amended_overflow {α : Type} (c : BroadcastChannel α) (x : α)
    (pos : Nat) (h : pos + c.capacity < c.sent.length) :
    (c.send x).sent = c.sent ++ [x] ∧
    c.recv pos = RecvResult.fail
      (RecvError.overflowed (c.sent.length - c.capacity - pos))
      (c.sent.length - c.capacity) ∧
    Receiver.receive c pos = RecvResultW.fail
      (WatchError.unknownError
        (Nat.repr (c.sent.length - c.capacity - pos)))
      (c.sent.length - c.capacity) := by
  refine ⟨rfl, ?_, ?_⟩
  · rw [BroadcastChannel.recv, if_pos h]
  · rw [Receiver.receive, BroadcastChannel.recv, if_pos h]
    rfl

/-- C9 witness: the amended statement at the concrete overflow
scenario. -/
theorem c9_witness :
    (0 + chanC9.capacity < chanC9.sent.length) ∧
    ((chanC9.send 9).sent = chanC9.sent ++ [9] ∧
      chanC9.recv 0 = RecvResult.fail
        (RecvError.overflowed (chanC9.sent.length - chanC9.capacity - 0))
        (chanC9.sent.length - chanC9.capacity) ∧
      Receiver.receive chanC9 0 = RecvResultW.fail
        (WatchError.unknownError
          (Nat.repr (chanC9.sent.length - chanC9.capacity - 0)))
        (chanC9.sent.length - chanC9.capacity)) :=
  ⟨by decide, c9_amended_overflow chanC9 9 0 (by decide)⟩
